import Mathlib

/-!
Shallow embedding of the Community-saver backend (a role-based financial-group
management service) and verification of its specification claims.

Records are stored in a document store; we model a database snapshot as lists
of plain records.  Monetary values and JS numbers are modelled as rationals;
`Math.round` is Lean's `round` (both are floor of x + 1/2).  A JS `Date` is
modelled by its epoch timestamp together with its day-of-month component,
which are the only two observations the code makes of dates.
-/

namespace CommunitySaver

/-- Mongo ObjectId, modelled as a natural number. -/
abbrev DocId := Nat

/-- JS number used for money, interest rates and durations. -/
abbrev Money := ℚ

/-- A JS Date: `t` is the epoch-millisecond timestamp (used by all ordering
comparisons such as cutoff checks), `day` is the day-of-month component
returned by `getDate()`. -/
structure Date where
  t : ℤ
  day : ℕ
deriving DecidableEq, Repr

inductive Role
  | admin
  | branch_lead
  | member
deriving DecidableEq, Repr

/-- Contribution status enum from the Contribution schema. -/
inductive CStatus
  | pending
  | confirmed
  | cancelled
deriving DecidableEq, Repr

/-- Loan status enum (per the spec's data model; the Loan schema file is not
part of the shared sources, but every status literal below appears in the
controllers). -/
inductive LStatus
  | pending
  | approved
  | rejected
  | disbursed
  | repaid
  | defaulted
deriving DecidableEq, Repr

/-- Penalty status enum from the Penalty schema. -/
inductive PStatus
  | pending
  | paid
  | waived
deriving DecidableEq, Repr

/-- Contribution type enum from the Contribution schema
(monthly, weekly, special, penalty_payment); default is monthly. -/
inductive CType
  | monthly
  | weekly
  | special
  | penalty_payment
deriving DecidableEq, Repr

/-- A User document (financial fields only).  The running totals
`totalContributions`, `totalLoans`, `totalPenalties` are denormalized
caches maintained by the mutating operations. -/
structure User where
  uid : DocId
  role : Role
  isActive : Bool
  branch : DocId
  totalContributions : Money
  totalLoans : Money
  totalPenalties : Money
deriving DecidableEq, Repr

/-- A Contribution document.  The owner is stored under the schema path
`memberId`; the document has no `member` path. -/
structure Contribution where
  cid : DocId
  memberId : DocId
  amount : Money
  contributionType : CType
  contributionDate : Date
  createdAt : Date
  recordedBy : DocId
  branch : DocId
  status : CStatus
deriving DecidableEq, Repr

/-- A Loan document.  The member reference is stored under the schema path
`member` (all loan controllers query `member:`).  `totalAmount` and
`interestRate` are unset until approval, `repaidAt` until repayment;
`createdAt`/`updatedAt` always exist (schema timestamps). -/
structure Loan where
  lid : DocId
  member : DocId
  amount : Money
  duration : Money
  interestRate : Option Money
  status : LStatus
  totalAmount : Option Money
  rejectionReason : Option DocId
  approvedBy : Option DocId
  approvedDate : Option Date
  disbursedDate : Option Date
  repaidAt : Option Date
  updatedAt : Option Date
  createdAt : Date
  branch : DocId
deriving DecidableEq, Repr

/-- Penalty reason enum from the Penalty schema. -/
inductive PReason
  | late_contribution
  | missed_meeting
  | late_loan_repayment
  | policy_violation
  | other
deriving DecidableEq, Repr

/-- A Penalty document.  The member reference is stored under the schema
path `member`. -/
structure Penalty where
  pid : DocId
  member : DocId
  amount : Money
  reason : PReason
  assignedBy : DocId
  status : PStatus
  assignedDate : Date
  paidDate : Option Date
  waivedDate : Option Date
  waivedBy : Option DocId
  updatedAt : Option Date
  createdAt : Date
  branch : DocId
deriving DecidableEq, Repr

/-- A snapshot of the document store. -/
structure St where
  users : List User
  contributions : List Contribution
  loans : List Loan
  penalties : List Penalty
deriving DecidableEq, Repr

/-! ## Generic store queries -/

/-- JS `xs.reduce((sum, x) => sum + f(x), 0)`. -/
def jsSum {α : Type} (f : α → Money) (xs : List α) : Money :=
  xs.foldl (fun sum x => sum + f x) 0

/-- Embeds `User.findById`. -/
def findUser (st : St) (uid : DocId) : Option User :=
  st.users.find? (fun u => u.uid = uid)

/-- Whether a referenced user document exists (a `populate` of the member
path yields a non-null document exactly in this case). -/
def memberExists (st : St) (uid : DocId) : Bool :=
  st.users.any (fun u => u.uid = uid)

/-- Replace the stored totals of one user (`User.findByIdAndUpdate`-style
point update used by the recompute helpers). -/
def setUserTotalContributions (st : St) (uid : DocId) (v : Money) : St :=
  { st with users := st.users.map (fun u =>
      if u.uid = uid then { u with totalContributions := v } else u) }

def setUserTotalLoans (st : St) (uid : DocId) (v : Money) : St :=
  { st with users := st.users.map (fun u =>
      if u.uid = uid then { u with totalLoans := v } else u) }

def setUserTotalPenalties (st : St) (uid : DocId) (v : Money) : St :=
  { st with users := st.users.map (fun u =>
      if u.uid = uid then { u with totalPenalties := v } else u) }

/-! ## Recompute helpers (model statics / hooks) -/

/-- The `member` path of a Contribution document, as read by a raw
aggregation `$match`.  The Contribution schema stores the owner under
`memberId` and defines no `member` path, so this field is absent on every
document. -/
def contributionMemberField (_ : Contribution) : Option DocId :=
  none

/-- Embeds `Contribution.updateUserContributions` (Contribution model
static): aggregates documents matching `{ member: userId, status:
"confirmed" }` and stores the summed amount as the user's
`totalContributions`.  The filter is over the absent `member` path, so it
matches no document. -/
def updateUserContributions (st : St) (userId : DocId) : St :=
  let stats :=
    st.contributions.filter
      (fun c => contributionMemberField c = some userId ∧ c.status = CStatus.confirmed)
  let total := (stats.map (fun c => c.amount)).sum
  setUserTotalContributions st userId total

/-- Embeds `Penalty.updateUserPenalties` (Penalty model static): aggregates
documents matching `{ member: userId, status: "pending" }` (the Penalty
schema does store the member under `member`) and stores the sum as the
user's `totalPenalties`. -/
def updateUserPenalties (st : St) (userId : DocId) : St :=
  let stats :=
    st.penalties.filter
      (fun p => p.member = userId ∧ p.status = PStatus.pending)
  let total := (stats.map (fun p => p.amount)).sum
  setUserTotalPenalties st userId total

/-! ## Loan lifecycle (controller/loans.js) -/

/-- JS truthiness of a number: zero (and NaN) are falsy. -/
def truthy (x : Money) : Bool := x ≠ 0

/-- JS truthiness of an optional number. -/
def truthyOpt (x : Option Money) : Bool :=
  match x with
  | none => false
  | some v => v ≠ 0

/-- Outcome of a request handler: either an HTTP error status, or success
together with the new store snapshot. -/
inductive Outcome
  | httpError (code : Nat) (st : St)
  | ok (st : St)
deriving DecidableEq, Repr

/-- The snapshot an outcome leaves behind. -/
def Outcome.state : Outcome → St
  | .httpError _ st => st
  | .ok st => st

/-- A member has a loan in {pending, approved} (the `Loan.findOne` conflict
check of `requestingLoan`). -/
def hasActiveLoan (st : St) (m : DocId) : Bool :=
  st.loans.any (fun l =>
    l.member = m ∧ (l.status = LStatus.pending ∨ l.status = LStatus.approved))

/-- The Loan document `requestingLoan` creates: pending, no rate or total
yet (the approver sets pricing later). -/
def requestedLoanDoc (actor : User) (newId : DocId)
    (amount duration : Money) (now : Date) : Loan :=
  { lid := newId
    member := actor.uid
    amount := amount
    duration := duration
    interestRate := none
    status := LStatus.pending
    totalAmount := none
    rejectionReason := none
    approvedBy := none
    approvedDate := none
    disbursedDate := none
    repaidAt := none
    updatedAt := some now
    createdAt := now
    branch := actor.branch }

/-- Embeds `requestingLoan`: refuses with 400 when the requesting member
already has a pending or approved loan; otherwise creates the loan in its
initial state and recomputes the member's `totalLoans` as the sum of the
principal of all of the member's loan records. -/
def requestingLoan (st : St) (actor : User) (newId : DocId)
    (amount duration : Money) (now : Date) : Outcome :=
  if hasActiveLoan st actor.uid then .httpError 400 st
  else
    let st1 : St := { st with loans := requestedLoanDoc actor newId amount duration now :: st.loans }
    let allLoans := st1.loans.filter (fun l => l.member = actor.uid)
    let totalLoans := jsSum (fun l => l.amount) allLoans
    .ok (setUserTotalLoans st1 actor.uid totalLoans)

/-- Decision field of a loan approval request body. -/
inductive ApproveDecision
  | approved
  | rejected
deriving DecidableEq, Repr

/-- Embeds `approvingLoan`: 404 when the loan is absent, 400 when its
status is not pending ("Loan has already been processed"); otherwise
updates status, approver and approval date, and — only when amount,
interestRate and duration are all truthy — stores
`totalAmount = amount + amount*interestRate*duration/100`. -/
def approvingLoan (st : St) (actor : User) (loanId : DocId)
    (decision : ApproveDecision) (interestRate : Option Money)
    (rejectionReason : Option DocId) (now : Date) : Outcome :=
  match st.loans.find? (fun l => l.lid = loanId) with
  | none => .httpError 404 st
  | some loan =>
    if loan.status ≠ LStatus.pending then .httpError 400 st
    else
      let upd : Loan → Loan := fun l =>
        match decision with
        | .approved =>
          let l1 := { l with
            status := LStatus.approved
            approvedBy := some actor.uid
            approvedDate := some now
            interestRate := interestRate }
          if truthy loan.amount ∧ truthyOpt interestRate ∧ truthy loan.duration then
            let tot := loan.amount + loan.amount * interestRate.getD 0 * loan.duration / 100
            { l1 with totalAmount := some tot }
          else l1
        | .rejected =>
          { l with
            status := LStatus.rejected
            approvedBy := some actor.uid
            approvedDate := some now
            rejectionReason := rejectionReason }
      .ok { st with loans := st.loans.map (fun l =>
              if l.lid = loanId then upd l else l) }

/-! ## Contribution accumulator (contributions controller) -/

/-- Request body of `POST /api/contributions` (fields the controller
reads; optional fields fall back to the schema defaults). -/
structure ContributionReq where
  memberId : DocId
  amount : Money
  contributionType : Option CType
  contributionDate : Option Date
  status : Option CStatus
deriving DecidableEq, Repr

/-- The Contribution document `createContribution` stores: branch from
the branch-lead actor, else the member's branch; type, date and status
fall back to the schema defaults. -/
def newContributionDoc (actor : User) (req : ContributionReq)
    (newCid : DocId) (now : Date) (member : User) : Contribution :=
  { cid := newCid
    memberId := req.memberId
    amount := req.amount
    contributionType := req.contributionType.getD CType.monthly
    contributionDate := req.contributionDate.getD now
    createdAt := now
    recordedBy := actor.uid
    branch := if actor.role = Role.branch_lead then actor.branch else member.branch
    status := req.status.getD CStatus.confirmed }

/-- The ledger writes of `createContribution` before the final totals
recompute: insert the contribution (its post-save hook recomputes the
member's totals), then, when the contribution date's day-of-month exceeds
10, insert the flat-25 `late_contribution` penalty (whose post-save hook
recomputes `totalPenalties`). -/
def createContributionLedger (st : St) (actor : User) (req : ContributionReq)
    (newCid newPid : DocId) (now : Date) (member : User) : St :=
  let contribution := newContributionDoc actor req newCid now member
  let st1 : St := { st with contributions := contribution :: st.contributions }
  let st2 := updateUserContributions st1 req.memberId
  let contributionDate := contribution.contributionDate
  if contributionDate.day > 10 then
    let penalty : Penalty :=
      { pid := newPid
        member := req.memberId
        amount := 25
        reason := PReason.late_contribution
        assignedBy := actor.uid
        status := PStatus.pending
        assignedDate := contributionDate
        paidDate := none
        waivedDate := none
        waivedBy := none
        updatedAt := some now
        createdAt := now
        branch := contribution.branch }
    let st3a : St := { st2 with penalties := penalty :: st2.penalties }
    updateUserPenalties st3a req.memberId
  else st2

/-- Embeds `createContribution`: 404 when the member is absent; performs
the ledger writes of `createContributionLedger`, then the controller
itself recomputes the member's `totalContributions` as the sum of ALL of
the member's contribution documents (any status). -/
def createContribution (st : St) (actor : User) (req : ContributionReq)
    (newCid newPid : DocId) (now : Date) : Outcome :=
  match findUser st req.memberId with
  | none => .httpError 404 st
  | some member =>
    let st3 := createContributionLedger st actor req newCid newPid now member
    let allContributions := st3.contributions.filter (fun c => c.memberId = member.uid)
    let total := jsSum (fun c => c.amount) allContributions
    .ok (setUserTotalContributions st3 member.uid total)

/-- Embeds `deletingContribution`: 404 when absent; otherwise deletes the
document and recomputes the owner's `totalContributions` with
`Contribution.updateUserContributions`. -/
def deletingContribution (st : St) (cid : DocId) : Outcome :=
  match st.contributions.find? (fun c => c.cid = cid) with
  | none => .httpError 404 st
  | some contribution =>
    let st1 : St :=
      { st with contributions := st.contributions.filter (fun c => ¬ c.cid = cid) }
    .ok (updateUserContributions st1 contribution.memberId)

/-! ## Penalty engine (penalties controller) -/

/-- Embeds `payPenalty`: 404 when absent; 400 ("Penalty is not pending")
when the status is not pending; 403 when a branch lead processes another
branch's penalty.  On success the penalty becomes paid with `paidDate`
stamped, and a Contribution of the literal amount -25 is created for the
penalty's member (the controller passes the tag under a `type` path that
the strict Contribution schema drops, so `contributionType` takes its
default monthly).  When the penalty's member document no longer exists,
reading `penalty.member._id` for that Contribution throws after the
penalty update was already written, surfacing as a 500. -/
def payPenalty (st : St) (actor : User) (penaltyId : DocId)
    (newCid : DocId) (now : Date) : Outcome :=
  match st.penalties.find? (fun p => p.pid = penaltyId) with
  | none => .httpError 404 st
  | some penalty =>
    if penalty.status ≠ PStatus.pending then .httpError 400 st
    else if actor.role = Role.branch_lead ∧ penalty.branch ≠ actor.branch then
      .httpError 403 st
    else
      let st1 : St :=
        { st with penalties := st.penalties.map (fun p =>
            if p.pid = penaltyId then
              { p with status := PStatus.paid, paidDate := some now, updatedAt := some now }
            else p) }
      if ¬ memberExists st penalty.member then .httpError 500 st1
      else
        let contribution : Contribution :=
          { cid := newCid
            memberId := penalty.member
            amount := -25
            contributionType := CType.monthly
            contributionDate := now
            createdAt := now
            recordedBy := actor.uid
            branch := penalty.branch
            status := CStatus.confirmed }
        let st2 : St := { st1 with contributions := contribution :: st1.contributions }
        .ok (updateUserContributions st2 penalty.member)

/-! ## Treasury Balance Calculator (getNetContributions) -/

/-- Output of `getNetContributions`. -/
structure NetResult where
  totalContributions : Money
  totalApprovedLoans : Money
  totalInterestFromRepaidLoans : Money
  totalCollectedPenalties : Money
  totalPaidPenalties : Money
  totalPendingPenalties : Money
  netAvailable : Money
  futureBalance : Money
  totalToBeRepaidOnApprovedLoans : Money
  bestFutureBalance : Money
deriving DecidableEq, Repr

/-- The query filter `{ status: "collected" }` used for collected
penalties: the Penalty schema's status enum has no `collected` value, so
no stored document matches it. -/
def penaltyStatusIsCollected (_ : Penalty) : Bool :=
  false

/-- Embeds `getNetContributions`, in the controller's own order: sums
contributions of active users, then approved-loan principal, repaid-loan
interest, collected/paid/pending penalty amounts (each restricted to
records whose populated member is non-null), and derives `netAvailable`,
`futureBalance` and `bestFutureBalance`. -/
def getNetContributions (st : St) : NetResult :=
  let activeUserIds := (st.users.filter (fun u => u.isActive)).map (fun u => u.uid)
  let contribs := st.contributions.filter (fun c => activeUserIds.contains c.memberId)
  let totalContributions := jsSum (fun c => c.amount) contribs
  let approvedLoans :=
    (st.loans.filter (fun l => l.status = LStatus.approved)).filter
      (fun l => memberExists st l.member)
  let totalApprovedLoans := jsSum (fun l => l.amount) approvedLoans
  let repaidLoans :=
    (st.loans.filter (fun l => l.status = LStatus.repaid)).filter
      (fun l => memberExists st l.member)
  let totalInterestFromRepaidLoans :=
    jsSum (fun l => l.totalAmount.getD 0 - l.amount) repaidLoans
  let collectedPenalties :=
    (st.penalties.filter penaltyStatusIsCollected).filter
      (fun p => memberExists st p.member)
  let totalCollectedPenalties := jsSum (fun p => p.amount) collectedPenalties
  let paidPenalties :=
    (st.penalties.filter (fun p => p.status = PStatus.paid)).filter
      (fun p => memberExists st p.member)
  let totalPaidPenalties := jsSum (fun p => p.amount) paidPenalties
  let pendingPenalties :=
    (st.penalties.filter (fun p => p.status = PStatus.pending)).filter
      (fun p => memberExists st p.member)
  let totalPendingPenalties := jsSum (fun p => p.amount) pendingPenalties
  let netAvailable :=
    totalContributions - totalApprovedLoans + totalInterestFromRepaidLoans +
      totalCollectedPenalties + totalPaidPenalties
  let totalInterestFromApprovedLoans :=
    jsSum (fun l => l.totalAmount.getD 0 - l.amount) approvedLoans
  let futureBalance := netAvailable + totalInterestFromApprovedLoans + totalPendingPenalties
  let totalToBeRepaidOnApprovedLoans :=
    jsSum (fun l => l.totalAmount.getD 0) approvedLoans
  let bestFutureBalance :=
    netAvailable + totalToBeRepaidOnApprovedLoans + totalPendingPenalties
  { totalContributions := totalContributions
    totalApprovedLoans := totalApprovedLoans
    totalInterestFromRepaidLoans := totalInterestFromRepaidLoans
    totalCollectedPenalties := totalCollectedPenalties
    totalPaidPenalties := totalPaidPenalties
    totalPendingPenalties := totalPendingPenalties
    netAvailable := netAvailable
    futureBalance := futureBalance
    totalToBeRepaidOnApprovedLoans := totalToBeRepaidOnApprovedLoans
    bestFutureBalance := bestFutureBalance }

/-! Treasury inputs stated directly as ledger sums (used to phrase the
claims about `getNetContributions`). -/

/-- Sum of the contribution amounts of active users. -/
def inputTotalContributions (st : St) : Money :=
  ((st.contributions.filter
      (fun c => st.users.any (fun u => u.isActive ∧ u.uid = c.memberId))).map
    (fun c => c.amount)).sum

/-- Sum of the principal of approved loans whose member exists. -/
def inputTotalApprovedLoans (st : St) : Money :=
  ((st.loans.filter
      (fun l => memberExists st l.member ∧ l.status = LStatus.approved)).map
    (fun l => l.amount)).sum

/-- Sum of the interest component of repaid loans whose member exists. -/
def inputInterestFromRepaidLoans (st : St) : Money :=
  ((st.loans.filter
      (fun l => memberExists st l.member ∧ l.status = LStatus.repaid)).map
    (fun l => l.totalAmount.getD 0 - l.amount)).sum

/-- Sum of the amounts of penalties in the (unreachable) collected status. -/
def inputCollectedPenalties (st : St) : Money :=
  ((st.penalties.filter
      (fun p => memberExists st p.member ∧ penaltyStatusIsCollected p)).map
    (fun p => p.amount)).sum

/-- Sum of the amounts of paid penalties whose member exists. -/
def inputPaidPenalties (st : St) : Money :=
  ((st.penalties.filter
      (fun p => memberExists st p.member ∧ p.status = PStatus.paid)).map
    (fun p => p.amount)).sum

/-- Sum of the amounts of pending penalties whose member exists. -/
def inputPendingPenalties (st : St) : Money :=
  ((st.penalties.filter
      (fun p => memberExists st p.member ∧ p.status = PStatus.pending)).map
    (fun p => p.amount)).sum

/-- Sum of interest embedded in approved loans whose member exists. -/
def inputInterestFromApprovedLoans (st : St) : Money :=
  ((st.loans.filter
      (fun l => memberExists st l.member ∧ l.status = LStatus.approved)).map
    (fun l => l.totalAmount.getD 0 - l.amount)).sum

/-- Sum of the full repayment amounts of approved loans whose member
exists. -/
def inputTotalToBeRepaidOnApprovedLoans (st : St) : Money :=
  ((st.loans.filter
      (fun l => memberExists st l.member ∧ l.status = LStatus.approved)).map
    (fun l => l.totalAmount.getD 0)).sum

/-! ## Share & Interest Allocator (users controller, getMemberShares) -/

/-- The contributor query of `getMemberShares`: active members and branch
leads whose stored `totalContributions` is positive. -/
def isContributor (u : User) : Bool :=
  (u.role = Role.member ∨ u.role = Role.branch_lead) ∧ u.isActive ∧
    0 < u.totalContributions

def contributorUsers (st : St) : List User :=
  st.users.filter isContributor

def contributorIds (st : St) : List DocId :=
  (contributorUsers st).map (fun u => u.uid)

/-- Aggregate total of ALL contribution amounts (the `$group`/`$sum`
aggregation with no `$match` stage). -/
def aggTotalContributions (st : St) : Money :=
  (st.contributions.map (fun c => c.amount)).sum

/-- The contribution cache fetched once by `getMemberShares`: all
contributions owned by a contributor.  The controller also sorts this list
by `createdAt`; the order is only an access optimization and no sum below
depends on it, so the list order is kept. -/
def sortedContributions (st : St) : List Contribution :=
  st.contributions.filter (fun c => (contributorIds st).contains c.memberId)

/-- The `totals` object built by `allocateByContribsBeforeOptimized`:
per-member sums of cached contribution amounts with `createdAt` on or
before the cutoff.  An id without any matching contribution has no entry
in the JS object; reading it yields `undefined`, coalesced to 0 everywhere
it is used, so the map is modelled as a total function defaulting to 0. -/
def allocTotals (cs : List Contribution) (cutoff : Date) : DocId → Money :=
  cs.foldl
    (fun totals c =>
      if c.createdAt.t ≤ cutoff.t then
        fun id => if id = c.memberId then totals id + c.amount else totals id
      else totals)
    (fun _ => 0)

/-- The `pool` accumulator of `allocateByContribsBeforeOptimized`. -/
def allocPool (cs : List Contribution) (cutoff : Date) : Money :=
  cs.foldl (fun pool c => if c.createdAt.t ≤ cutoff.t then pool + c.amount else pool) 0

/-- Embeds `allocateByContribsBeforeOptimized`: for a non-positive amount,
or a non-positive pool at the cutoff, every member gets 0 (the JS function
returns the empty allocation object); otherwise each member receives
`totals[id] / pool * amount`. -/
def allocateByContribsBeforeOptimized (st : St) (amount : Money) (cutoff : Date) :
    DocId → Money :=
  if amount ≤ 0 then fun _ => 0
  else
    let totals := allocTotals (sortedContributions st) cutoff
    let pool := allocPool (sortedContributions st) cutoff
    if pool ≤ 0 then fun _ => 0
    else fun id => totals id / pool * amount

/-- Embeds `loan.repaidAt || loan.updatedAt || loan.createdAt` (a present
Date is always truthy). -/
def loanRepaidDate (l : Loan) : Date :=
  l.repaidAt.getD (l.updatedAt.getD l.createdAt)

/-- Embeds `(loan.totalAmount || 0) - (loan.amount || 0)`. -/
def loanInterestAmount (l : Loan) : Money :=
  l.totalAmount.getD 0 - l.amount

/-- Embeds `penalty.paidDate || penalty.updatedAt || penalty.createdAt`. -/
def penaltyPaidDate (p : Penalty) : Date :=
  p.paidDate.getD (p.updatedAt.getD p.createdAt)

/-- One iteration of the repaid-loan loop of `getMemberShares`: skip the
loan when its interest component is not positive, else add its allocations
pointwise into the accumulator. -/
def loanEventStep (st : St) (m : DocId → Money) (l : Loan) : DocId → Money :=
  if loanInterestAmount l ≤ 0 then m
  else fun id => m id +
    allocateByContribsBeforeOptimized st (loanInterestAmount l) (loanRepaidDate l) id

/-- One iteration of the paid-penalty loop of `getMemberShares`: skip the
penalty when its populated member is null or its amount is not positive,
else add its allocations pointwise into the accumulator. -/
def penaltyEventStep (st : St) (m : DocId → Money) (p : Penalty) : DocId → Money :=
  if ¬ memberExists st p.member then m
  else if p.amount ≤ 0 then m
  else fun id => m id +
    allocateByContribsBeforeOptimized st p.amount (penaltyPaidDate p) id

/-- The `interestEarnedMap` accumulated by `getMemberShares`: initialized
to 0, then every repaid loan with positive interest component and every
paid penalty with an existing member and positive amount adds its
cutoff-weighted allocations.  (`createdAt` always exists, so the
`!repaidAt` / `!paidDate` guards never fire.) -/
def interestEarnedMap (st : St) : DocId → Money :=
  let afterLoans :=
    (st.loans.filter (fun l => l.status = LStatus.repaid)).foldl
      (loanEventStep st) (fun _ => 0)
  (st.penalties.filter (fun p => p.status = PStatus.paid)).foldl
    (penaltyEventStep st) afterLoans

/-- The `summedInterestFromRepaidLoans` accumulator of `getMemberShares`. -/
def summedInterestFromRepaidLoans (st : St) : Money :=
  ((st.loans.filter
      (fun l => l.status = LStatus.repaid ∧ 0 < loanInterestAmount l)).map
    loanInterestAmount).sum

/-- The `summedInterestFromPaidPenalties` accumulator of `getMemberShares`. -/
def summedInterestFromPaidPenalties (st : St) : Money :=
  ((st.penalties.filter
      (fun p => p.status = PStatus.paid ∧ memberExists st p.member ∧ 0 < p.amount)).map
    (fun p => p.amount)).sum

/-- Embeds `Math.round(x * 100) / 100`: rounding to 2 decimal places.  JS
`Math.round` rounds half away towards positive, exactly `⌊x + 1/2⌋`, which
is Lean's `round`. -/
def round2 (x : Money) : Money :=
  (round (x * 100) : ℤ) / 100

/-- The `sharePercentage` figure `getMemberShares` reports for one
contributor: the stored `totalContributions` over the aggregate
contribution total, as `Math.round(share * 10000) / 100`; 0 when the
aggregate total is not positive. -/
def sharePercentageOf (st : St) (u : User) : Money :=
  let share :=
    if 0 < aggTotalContributions st
    then u.totalContributions / aggTotalContributions st
    else 0
  (round (share * 10000) : ℤ) / 100

/-- Sum of the reported `sharePercentage` over all contributors. -/
def sumSharePercentages (st : St) : Money :=
  ((contributorUsers st).map (sharePercentageOf st)).sum

/-- Sum of the (unrounded) `interestEarned` accumulators over all
contributors. -/
def sumInterestEarned (st : St) : Money :=
  ((contributorIds st).map (interestEarnedMap st)).sum

/-! ## Spec-side definitions (the claims' own words, for comparison) -/

/-- Per the claim: a member's contribution balance as of a cutoff — sum of
that member's CONFIRMED contributions with timestamp on or before the
cutoff. -/
def claimMemberBalAsOf (st : St) (id : DocId) (cutoff : Date) : Money :=
  ((st.contributions.filter
      (fun c => c.memberId = id ∧ c.status = CStatus.confirmed ∧
        c.createdAt.t ≤ cutoff.t)).map
    (fun c => c.amount)).sum

/-- Per the claim: the pool balance as of a cutoff — the same sum across
all members. -/
def claimPoolBalAsOf (st : St) (cutoff : Date) : Money :=
  ((st.contributions.filter
      (fun c => c.status = CStatus.confirmed ∧ c.createdAt.t ≤ cutoff.t)).map
    (fun c => c.amount)).sum

/-- The allocation rule exactly as claim C1 words it:
`eventAmount * (memberBalanceAtCutoff / poolBalanceAtCutoff)`, and zero
for every member when the pool balance at the cutoff is ≤ 0. -/
def claimAllocation (st : St) (amount : Money) (cutoff : Date) (id : DocId) : Money :=
  if claimPoolBalAsOf st cutoff ≤ 0 then 0
  else amount * (claimMemberBalAsOf st id cutoff / claimPoolBalAsOf st cutoff)

/-- Per claim C2: the sum of all realized interest/penalty events —
interest components of repaid loans plus amounts of paid penalties. -/
def claimRealizedEventsTotal (st : St) : Money :=
  ((st.loans.filter (fun l => l.status = LStatus.repaid)).map loanInterestAmount).sum +
    ((st.penalties.filter (fun p => p.status = PStatus.paid)).map (fun p => p.amount)).sum

/-- The actual per-member balance the allocator uses: ALL of the member's
contributions regardless of status, with inclusive cutoff (restricted to
contributor-owned contributions by `sortedContributions`). -/
def memberBalAllAsOf (st : St) (id : DocId) (cutoff : Date) : Money :=
  (((sortedContributions st).filter
      (fun c => c.memberId = id ∧ c.createdAt.t ≤ cutoff.t)).map
    (fun c => c.amount)).sum

/-- The actual pool the allocator uses: all contributor-owned
contributions of any status, inclusive cutoff. -/
def poolBalAllAsOf (st : St) (cutoff : Date) : Money :=
  (((sortedContributions st).filter (fun c => c.createdAt.t ≤ cutoff.t)).map
    (fun c => c.amount)).sum

/-- Realized events total as the code actually accumulates it: only
events whose allocation pool at their cutoff is positive contribute. -/
def allocatedRealizedEventsTotal (st : St) : Money :=
  (((st.loans.filter (fun l => l.status = LStatus.repaid)).filter
      (fun l => 0 < loanInterestAmount l)).map
    (fun l =>
      if 0 < poolBalAllAsOf st (loanRepaidDate l) then loanInterestAmount l else 0)).sum +
  (((st.penalties.filter (fun p => p.status = PStatus.paid)).filter
      (fun p => memberExists st p.member ∧ 0 < p.amount)).map
    (fun p =>
      if 0 < poolBalAllAsOf st (penaltyPaidDate p) then p.amount else 0)).sum

/-! ## Concrete fixtures (small snapshots used to evaluate the claims) -/

/-- Fixture user (branch 1, zero loan/penalty totals). -/
def mkUser (uid : DocId) (role : Role) (isActive : Bool) (tc : Money) : User :=
  { uid := uid, role := role, isActive := isActive, branch := 1,
    totalContributions := tc, totalLoans := 0, totalPenalties := 0 }

/-- Fixture contribution recorded by user 50 into branch 1, created at
time `t` on day-of-month `day`. -/
def mkContribution (cid memberId : DocId) (amount : Money) (t : ℤ) (day : ℕ)
    (status : CStatus) : Contribution :=
  { cid := cid, memberId := memberId, amount := amount,
    contributionType := CType.monthly, contributionDate := ⟨t, day⟩,
    createdAt := ⟨t, day⟩, recordedBy := 50, branch := 1, status := status }

/-- Fixture repaid loan with the given principal and total, repaid at
time `rt`. -/
def mkRepaidLoan (lid member : DocId) (amount total : Money) (rt : ℤ) : Loan :=
  { lid := lid, member := member, amount := amount, duration := 12,
    interestRate := some 10, status := LStatus.repaid, totalAmount := some total,
    rejectionReason := none, approvedBy := some 50, approvedDate := some ⟨0, 1⟩,
    disbursedDate := none, repaidAt := some ⟨rt, 1⟩, updatedAt := some ⟨rt, 1⟩,
    createdAt := ⟨0, 1⟩, branch := 1 }

/-- Fixture pending loan awaiting approval (no rate, no total yet). -/
def mkPendingLoan (lid member : DocId) (amount duration : Money) : Loan :=
  { lid := lid, member := member, amount := amount, duration := duration,
    interestRate := none, status := LStatus.pending, totalAmount := none,
    rejectionReason := none, approvedBy := none, approvedDate := none,
    disbursedDate := none, repaidAt := none, updatedAt := some ⟨0, 1⟩,
    createdAt := ⟨0, 1⟩, branch := 1 }

/-- Fixture penalty assigned by user 50 in branch 1. -/
def mkPenalty (pid member : DocId) (amount : Money) (status : PStatus) : Penalty :=
  { pid := pid, member := member, amount := amount, reason := PReason.other,
    assignedBy := 50, status := status, assignedDate := ⟨0, 1⟩,
    paidDate := none, waivedDate := none, waivedBy := none,
    updatedAt := some ⟨0, 1⟩, createdAt := ⟨0, 1⟩, branch := 1 }

/-- Admin fixture. -/
def adminUser : User := mkUser 50 Role.admin true 0

/-- Snapshot for C1: contributor 1 has a confirmed contribution of 100 at
time 1, contributor 2 a CANCELLED contribution of 100 at time 1. -/
def stAllocStatus : St :=
  { users := [mkUser 1 Role.member true 100, mkUser 2 Role.member true 100]
    contributions :=
      [mkContribution 11 1 100 1 1 CStatus.confirmed,
       mkContribution 12 2 100 1 1 CStatus.cancelled]
    loans := []
    penalties := [] }

/-- Snapshot for C2: the only contribution postdates the repaid loan's
repayment date, so the 100-unit interest event has an empty pool at its
cutoff. -/
def stEarlyEvent : St :=
  { users := [mkUser 1 Role.member true 100]
    contributions := [mkContribution 11 1 100 10 5 CStatus.confirmed]
    loans := [mkRepaidLoan 21 1 1000 1100 5]
    penalties := [] }

/-- Snapshot for C3: one pending loan of 1000 over 12 months. -/
def stPendingLoan : St :=
  { users := [mkUser 1 Role.member true 0, adminUser]
    contributions := []
    loans := [mkPendingLoan 21 1 1000 12]
    penalties := [] }

/-- Snapshot for C4: a pending penalty of 50 and an already-paid penalty
of 30, both for member 1. -/
def stPenalties : St :=
  { users := [mkUser 1 Role.member true 0, adminUser]
    contributions := []
    loans := []
    penalties := [mkPenalty 31 1 50 PStatus.pending, mkPenalty 32 1 30 PStatus.paid] }

/-- Snapshot for C6: contributor 1 holds a stored total of 100 matching
its ledger entry, but a second ledger contribution of 100 belongs to id 3,
which is no user at all, inflating the aggregate denominator. -/
def stOrphanShare : St :=
  { users := [mkUser 1 Role.member true 100]
    contributions :=
      [mkContribution 11 1 100 1 1 CStatus.confirmed,
       mkContribution 12 3 100 1 1 CStatus.confirmed]
    loans := []
    penalties := [] }

/-- Consistent snapshot: stored totals 100 and 300 match the ledger. -/
def stConsistentShare : St :=
  { users := [mkUser 1 Role.member true 100, mkUser 2 Role.member true 300]
    contributions :=
      [mkContribution 11 1 100 1 1 CStatus.confirmed,
       mkContribution 12 2 300 1 1 CStatus.confirmed]
    loans := []
    penalties := [] }

/-- Snapshot for C7: member 1 already owns a CANCELLED contribution of 50. -/
def stCancelled : St :=
  { users := [mkUser 1 Role.member true 0, adminUser]
    contributions := [mkContribution 11 1 50 1 1 CStatus.cancelled]
    loans := []
    penalties := [] }

/-- Snapshot for C8/C9/C10: member 1 with two confirmed contributions and
a pending loan. -/
def stMemberOne : St :=
  { users := [mkUser 1 Role.member true 150, adminUser]
    contributions :=
      [mkContribution 11 1 100 1 1 CStatus.confirmed,
       mkContribution 12 1 50 2 2 CStatus.confirmed]
    loans := [mkPendingLoan 21 1 500 6]
    penalties := [] }

/-- Contribution request for member 1 posted on day 3. -/
def reqDay3 : ContributionReq :=
  { memberId := 1, amount := 100, contributionType := none,
    contributionDate := some ⟨3, 3⟩, status := none }

/-- Confirmed contribution request for member 1 posted on day 15. -/
def reqDay15 : ContributionReq :=
  { memberId := 1, amount := 100, contributionType := none,
    contributionDate := some ⟨15, 15⟩, status := some CStatus.confirmed }

/-- Confirmed contribution request for member 1 posted on day 8. -/
def reqDay8 : ContributionReq :=
  { memberId := 1, amount := 100, contributionType := none,
    contributionDate := some ⟨8, 8⟩, status := some CStatus.confirmed }

/-! ## Helper lemmas -/

lemma findUser_uid (st : St) (uid : DocId) (u : User)
    (h : findUser st uid = some u) : u.uid = uid := by
  have := List.find?_some h
  simpa using this

lemma setUserTotalContributions_contributions (st : St) (uid : DocId) (v : Money) :
    (setUserTotalContributions st uid v).contributions = st.contributions := rfl

lemma setUserTotalContributions_penalties (st : St) (uid : DocId) (v : Money) :
    (setUserTotalContributions st uid v).penalties = st.penalties := rfl

lemma setUserTotalContributions_loans (st : St) (uid : DocId) (v : Money) :
    (setUserTotalContributions st uid v).loans = st.loans := rfl

lemma setUserTotalLoans_loans (st : St) (uid : DocId) (v : Money) :
    (setUserTotalLoans st uid v).loans = st.loans := rfl

lemma updateUserContributions_contributions (st : St) (uid : DocId) :
    (updateUserContributions st uid).contributions = st.contributions := rfl

lemma updateUserContributions_penalties (st : St) (uid : DocId) :
    (updateUserContributions st uid).penalties = st.penalties := rfl

lemma updateUserContributions_loans (st : St) (uid : DocId) :
    (updateUserContributions st uid).loans = st.loans := rfl

lemma updateUserPenalties_contributions (st : St) (uid : DocId) :
    (updateUserPenalties st uid).contributions = st.contributions := rfl

lemma updateUserPenalties_penalties (st : St) (uid : DocId) :
    (updateUserPenalties st uid).penalties = st.penalties := rfl

/-- The aggregation of `Contribution.updateUserContributions` matches no
document (the Contribution schema stores no `member` path), so the helper
always writes 0. -/
lemma updateUserContributions_zero (st : St) (uid : DocId) :
    updateUserContributions st uid = setUserTotalContributions st uid 0 := by
  simp [updateUserContributions, contributionMemberField]

/-- Membership in the active-user id list coincides with an existence
test over the user list. -/
lemma activeIds_contains (us : List User) (m : DocId) :
    ((us.filter (fun u => u.isActive)).map (fun u => u.uid)).contains m
      = us.any (fun u => u.isActive ∧ u.uid = m) := by
  rw [Bool.eq_iff_iff]
  simp [List.any_eq_true, List.mem_map, List.mem_filter]
  tauto

lemma jsSum_go {α : Type} (f : α → Money) (xs : List α) :
    ∀ a : Money, xs.foldl (fun sum x => sum + f x) a = a + (xs.map f).sum := by
  induction xs with
  | nil => intro a; simp
  | cons x xs ih =>
    intro a
    simp only [List.foldl_cons, List.map_cons, List.sum_cons, ih]
    ring

lemma jsSum_eq_sum {α : Type} (f : α → Money) (xs : List α) :
    jsSum f xs = (xs.map f).sum := by
  simpa [jsSum] using jsSum_go f xs 0

lemma sum_map_zero {α : Type} (xs : List α) :
    (xs.map (fun _ => (0 : Money))).sum = 0 := by
  induction xs with
  | nil => rfl
  | cons x xs ih => simp [ih]

lemma sum_map_add {α : Type} (f g : α → Money) (xs : List α) :
    (xs.map (fun x => f x + g x)).sum = (xs.map f).sum + (xs.map g).sum := by
  induction xs with
  | nil => simp
  | cons x xs ih => simp [ih]; ring

lemma sum_map_mul_right {α : Type} (f : α → Money) (k : Money) (xs : List α) :
    (xs.map (fun x => f x * k)).sum = (xs.map f).sum * k := by
  induction xs with
  | nil => simp
  | cons x xs ih => simp [ih]; ring

lemma sum_map_ite_not_mem (ids : List DocId) (m : DocId) (x : Money)
    (hm : m ∉ ids) :
    (ids.map (fun i => if m = i then x else 0)).sum = 0 := by
  induction ids with
  | nil => rfl
  | cons a ids ih =>
    have hma : m ≠ a := fun h => hm (h ▸ List.mem_cons_self a ids)
    have hm' : m ∉ ids := fun h => hm (List.mem_cons_of_mem a h)
    simp [hma, ih hm']

lemma sum_map_ite_single (ids : List DocId) (m : DocId) (x : Money)
    (hm : m ∈ ids) (hnd : ids.Nodup) :
    (ids.map (fun i => if m = i then x else 0)).sum = x := by
  induction ids with
  | nil => cases hm
  | cons a ids ih =>
    rcases List.mem_cons.mp hm with h | h
    · subst h
      have : m ∉ ids := (List.nodup_cons.mp hnd).1
      simp [sum_map_ite_not_mem ids m x this]
    · have hma : m ≠ a := by
        rintro rfl
        exact (List.nodup_cons.mp hnd).1 h
      simp [hma, ih h (List.nodup_cons.mp hnd).2]

lemma sum_map_filter_cons {α : Type} (p : α → Bool) (f : α → Money)
    (c : α) (cs : List α) :
    (((c :: cs).filter p).map f).sum
      = (if p c then f c else 0) + ((cs.filter p).map f).sum := by
  by_cases h : p c <;> simp [List.filter_cons, h]

lemma allocTotals_go (cutoff : Date) (cs : List Contribution) :
    ∀ (acc : DocId → Money) (id : DocId),
      cs.foldl
        (fun totals c =>
          if c.createdAt.t ≤ cutoff.t then
            fun i => if i = c.memberId then totals i + c.amount else totals i
          else totals)
        acc id
      = acc id +
        ((cs.filter (fun c => c.memberId = id ∧ c.createdAt.t ≤ cutoff.t)).map
          (fun c => c.amount)).sum := by
  induction cs with
  | nil => intro acc id; simp
  | cons c cs ih =>
    intro acc id
    by_cases hd : c.createdAt.t ≤ cutoff.t
    · by_cases hid : id = c.memberId
      · subst hid
        simp only [List.foldl_cons, if_pos hd, ih, if_pos rfl]
        rw [sum_map_filter_cons]
        simp [hd]
        ring
      · have hid' : ¬ c.memberId = id := fun h => hid h.symm
        simp only [List.foldl_cons, if_pos hd, ih, if_neg hid]
        rw [sum_map_filter_cons]
        simp [hid']
    · simp only [List.foldl_cons, if_neg hd, ih]
      rw [sum_map_filter_cons]
      simp [hd]

lemma allocTotals_eq (cutoff : Date) (cs : List Contribution) (id : DocId) :
    allocTotals cs cutoff id
      = ((cs.filter (fun c => c.memberId = id ∧ c.createdAt.t ≤ cutoff.t)).map
          (fun c => c.amount)).sum := by
  simpa [allocTotals] using allocTotals_go cutoff cs (fun _ => 0) id

lemma allocPool_go (cutoff : Date) (cs : List Contribution) :
    ∀ a : Money,
      cs.foldl (fun pool c => if c.createdAt.t ≤ cutoff.t then pool + c.amount else pool) a
      = a + ((cs.filter (fun c => c.createdAt.t ≤ cutoff.t)).map (fun c => c.amount)).sum := by
  induction cs with
  | nil => intro a; simp
  | cons c cs ih =>
    intro a
    by_cases hd : c.createdAt.t ≤ cutoff.t
    · simp only [List.foldl_cons, if_pos hd, ih]
      rw [sum_map_filter_cons]
      simp [hd]
      ring
    · simp only [List.foldl_cons, if_neg hd, ih]
      rw [sum_map_filter_cons]
      simp [hd]

lemma allocPool_eq (cutoff : Date) (cs : List Contribution) :
    allocPool cs cutoff
      = ((cs.filter (fun c => c.createdAt.t ≤ cutoff.t)).map (fun c => c.amount)).sum := by
  simpa [allocPool] using allocPool_go cutoff cs 0

lemma allocPool_eq_poolBal (st : St) (cutoff : Date) :
    allocPool (sortedContributions st) cutoff = poolBalAllAsOf st cutoff := by
  rw [allocPool_eq, poolBalAllAsOf]

lemma allocTotals_eq_memberBal (st : St) (cutoff : Date) (id : DocId) :
    allocTotals (sortedContributions st) cutoff id = memberBalAllAsOf st id cutoff := by
  rw [allocTotals_eq, memberBalAllAsOf]

lemma balance_sum (ids : List DocId) (hnd : ids.Nodup) (cutoff : Date) :
    ∀ cs : List Contribution, (∀ c ∈ cs, c.memberId ∈ ids) →
      (ids.map (fun id =>
          ((cs.filter (fun c => c.memberId = id ∧ c.createdAt.t ≤ cutoff.t)).map
            (fun c => c.amount)).sum)).sum
        = ((cs.filter (fun c => c.createdAt.t ≤ cutoff.t)).map (fun c => c.amount)).sum := by
  intro cs
  induction cs with
  | nil => intro _; simp [sum_map_zero]
  | cons c cs ih =>
    intro hmem
    have hc : c.memberId ∈ ids := hmem c (List.mem_cons_self c cs)
    have hcs : ∀ x ∈ cs, x.memberId ∈ ids := fun x hx => hmem x (List.mem_cons_of_mem c hx)
    have expand : ∀ id : DocId,
        (((c :: cs).filter (fun x => x.memberId = id ∧ x.createdAt.t ≤ cutoff.t)).map
          (fun x => x.amount)).sum
        = (if c.memberId = id ∧ c.createdAt.t ≤ cutoff.t then c.amount else 0) +
          ((cs.filter (fun x => x.memberId = id ∧ x.createdAt.t ≤ cutoff.t)).map
            (fun x => x.amount)).sum := by
      intro id
      rw [sum_map_filter_cons]
      simp
    simp only [expand]
    rw [sum_map_add, ih hcs, sum_map_filter_cons]
    by_cases hd : c.createdAt.t ≤ cutoff.t
    · have : (ids.map (fun id =>
          if c.memberId = id ∧ c.createdAt.t ≤ cutoff.t then c.amount else 0)).sum
          = c.amount := by
        have : (fun id => if c.memberId = id ∧ c.createdAt.t ≤ cutoff.t then c.amount else 0)
            = fun id => if c.memberId = id then c.amount else 0 := by
          funext id
          by_cases hid : c.memberId = id <;> simp [hid, hd]
        rw [this]
        exact sum_map_ite_single ids c.memberId c.amount hc hnd
      rw [this]
      simp [hd]
    · have : (ids.map (fun id =>
          if c.memberId = id ∧ c.createdAt.t ≤ cutoff.t then c.amount else 0)).sum = 0 := by
        have : (fun id => if c.memberId = id ∧ c.createdAt.t ≤ cutoff.t then c.amount else 0)
            = fun _ => (0 : Money) := by
          funext id
          simp [hd]
        rw [this, sum_map_zero]
      rw [this]
      simp [hd]

lemma contributorIds_nodup (st : St)
    (hnd : (st.users.map (fun u => u.uid)).Nodup) : (contributorIds st).Nodup := by
  have hsub : List.Sublist (contributorIds st) (st.users.map (fun u => u.uid)) := by
    simpa [contributorIds, contributorUsers] using
      ((st.users.filter_sublist (p := isContributor)).map (fun u => u.uid))
  exact hnd.sublist hsub

lemma sortedContributions_mem (st : St) (c : Contribution)
    (hc : c ∈ sortedContributions st) : c.memberId ∈ contributorIds st := by
  have := (List.mem_filter.mp hc).2
  simpa [List.contains] using this

/-- Characterization of the allocator for a positive event amount: each id
receives its all-statuses balance share of the amount; 0 when the pool at
the cutoff is not positive. -/
lemma allocate_eq (st : St) (amount : Money) (cutoff : Date) (id : DocId)
    (hpos : 0 < amount) :
    allocateByContribsBeforeOptimized st amount cutoff id
      = if poolBalAllAsOf st cutoff ≤ 0 then 0
        else memberBalAllAsOf st id cutoff / poolBalAllAsOf st cutoff * amount := by
  have hA : ¬ amount ≤ 0 := not_le.mpr hpos
  by_cases hp : poolBalAllAsOf st cutoff ≤ 0
  · have hp' : allocPool (sortedContributions st) cutoff ≤ 0 := by
      rw [allocPool_eq_poolBal]; exact hp
    simp [allocateByContribsBeforeOptimized, hA, hp', hp]
  · have hp' : ¬ allocPool (sortedContributions st) cutoff ≤ 0 := by
      rw [allocPool_eq_poolBal]; exact hp
    simp [allocateByContribsBeforeOptimized, hA, hp', hp,
      allocTotals_eq_memberBal, allocPool_eq_poolBal]

/-- Summed over the (distinct) contributors, each positive event allocates
exactly its amount when the pool at its cutoff is positive, and nothing
otherwise. -/
lemma allocate_sum (st : St) (amount : Money) (cutoff : Date)
    (hnd : (st.users.map (fun u => u.uid)).Nodup) (hpos : 0 < amount) :
    ((contributorIds st).map (allocateByContribsBeforeOptimized st amount cutoff)).sum
      = if 0 < poolBalAllAsOf st cutoff then amount else 0 := by
  have hbal :
      ((contributorIds st).map (fun id => memberBalAllAsOf st id cutoff)).sum
        = poolBalAllAsOf st cutoff := by
    have := balance_sum (contributorIds st) (contributorIds_nodup st hnd) cutoff
      (sortedContributions st) (fun c hc => sortedContributions_mem st c hc)
    simpa [memberBalAllAsOf, poolBalAllAsOf] using this
  by_cases hp : poolBalAllAsOf st cutoff ≤ 0
  · have hnp : ¬ 0 < poolBalAllAsOf st cutoff := not_lt.mpr hp
    have : ∀ id ∈ contributorIds st,
        allocateByContribsBeforeOptimized st amount cutoff id = 0 := by
      intro id _
      rw [allocate_eq st amount cutoff id hpos]
      simp [hp]
    rw [List.map_congr_left this]
    simp [hnp, sum_map_zero]
  · have hplt : 0 < poolBalAllAsOf st cutoff := lt_of_not_le hp
    have hne : poolBalAllAsOf st cutoff ≠ 0 := ne_of_gt hplt
    have heach : ∀ id ∈ contributorIds st,
        allocateByContribsBeforeOptimized st amount cutoff id
          = memberBalAllAsOf st id cutoff * (amount / poolBalAllAsOf st cutoff) := by
      intro id _
      rw [allocate_eq st amount cutoff id hpos]
      simp [hp]
      ring
    rw [List.map_congr_left heach, sum_map_mul_right, hbal]
    field_simp [hplt]

/-- Summing the repaid-loan event loop over the contributors: every
processed event with positive interest adds its amount when its cutoff
pool is positive. -/
lemma loans_fold_sum (st : St) (hnd : (st.users.map (fun u => u.uid)).Nodup) :
    ∀ (ls : List Loan) (m0 : DocId → Money),
      ((contributorIds st).map (ls.foldl (loanEventStep st) m0)).sum
      = ((contributorIds st).map m0).sum +
        ((ls.filter (fun l => 0 < loanInterestAmount l)).map
          (fun l => if 0 < poolBalAllAsOf st (loanRepaidDate l)
            then loanInterestAmount l else 0)).sum := by
  intro ls
  induction ls with
  | nil => intro m0; simp
  | cons l ls ih =>
    intro m0
    rw [List.foldl_cons]
    by_cases hg : loanInterestAmount l ≤ 0
    · have hng : ¬ 0 < loanInterestAmount l := not_lt.mpr hg
      have hstep : loanEventStep st m0 l = m0 := by
        simp [loanEventStep, hg]
      rw [hstep, ih m0, sum_map_filter_cons]
      simp [hng]
    · have hpos : 0 < loanInterestAmount l := lt_of_not_le hg
      have hstep : loanEventStep st m0 l = fun id => m0 id +
          allocateByContribsBeforeOptimized st (loanInterestAmount l) (loanRepaidDate l) id := by
        simp [loanEventStep, hg]
      rw [hstep, ih, sum_map_add, allocate_sum st _ _ hnd hpos, sum_map_filter_cons]
      simp [hpos]
      ring

/-- Summing the paid-penalty event loop over the contributors. -/
lemma penalties_fold_sum (st : St) (hnd : (st.users.map (fun u => u.uid)).Nodup) :
    ∀ (ps : List Penalty) (m0 : DocId → Money),
      ((contributorIds st).map (ps.foldl (penaltyEventStep st) m0)).sum
      = ((contributorIds st).map m0).sum +
        ((ps.filter (fun p => memberExists st p.member ∧ 0 < p.amount)).map
          (fun p => if 0 < poolBalAllAsOf st (penaltyPaidDate p)
            then p.amount else 0)).sum := by
  intro ps
  induction ps with
  | nil => intro m0; simp
  | cons p ps ih =>
    intro m0
    rw [List.foldl_cons]
    by_cases hm : memberExists st p.member
    · by_cases hg : p.amount ≤ 0
      · have hng : ¬ 0 < p.amount := not_lt.mpr hg
        have hstep : penaltyEventStep st m0 p = m0 := by
          simp [penaltyEventStep, hm, hg]
        rw [hstep, ih m0, sum_map_filter_cons]
        simp [hng, hm]
      · have hpos : 0 < p.amount := lt_of_not_le hg
        have hstep : penaltyEventStep st m0 p = fun id => m0 id +
            allocateByContribsBeforeOptimized st p.amount (penaltyPaidDate p) id := by
          simp [penaltyEventStep, hm, hg]
        rw [hstep, ih, sum_map_add, allocate_sum st _ _ hnd hpos, sum_map_filter_cons]
        simp [hpos, hm]
        ring
    · have hstep : penaltyEventStep st m0 p = m0 := by
        simp [penaltyEventStep, hm]
      rw [hstep, ih m0, sum_map_filter_cons]
      simp [hm]

/-- The total interest the allocator hands out equals the total of the
events whose cutoff pool was positive. -/
lemma interest_conservation (st : St)
    (hnd : (st.users.map (fun u => u.uid)).Nodup) :
    sumInterestEarned st = allocatedRealizedEventsTotal st := by
  rw [sumInterestEarned]
  simp only [interestEarnedMap]
  rw [penalties_fold_sum st hnd, loans_fold_sum st hnd, sum_map_zero,
    allocatedRealizedEventsTotal]
  ring

lemma sum_map_sub {α : Type} (f g : α → Money) (xs : List α) :
    (xs.map (fun x => f x - g x)).sum = (xs.map f).sum - (xs.map g).sum := by
  induction xs with
  | nil => simp
  | cons x xs ih => simp [ih]; ring

lemma sum_map_div {α : Type} (f : α → Money) (k : Money) (xs : List α) :
    (xs.map (fun x => f x / k)).sum = (xs.map f).sum / k := by
  induction xs with
  | nil => simp
  | cons x xs ih => simp [ih, div_add_div_same]

lemma abs_sum_le_length_mul {α : Type} (f : α → Money) (b : Money)
    (xs : List α) (h : ∀ x ∈ xs, |f x| ≤ b) :
    |(xs.map f).sum| ≤ (xs.length : Money) * b := by
  induction xs with
  | nil => simp
  | cons x xs ih =>
    have hx : |f x| ≤ b := h x (List.mem_cons_self x xs)
    have hxs : |(xs.map f).sum| ≤ (xs.length : Money) * b :=
      ih (fun y hy => h y (List.mem_cons_of_mem x hy))
    calc |((x :: xs).map f).sum| = |f x + (xs.map f).sum| := by simp
      _ ≤ |f x| + |(xs.map f).sum| := abs_add _ _
      _ ≤ b + (xs.length : Money) * b := add_le_add hx hxs
      _ = ((x :: xs).length : Money) * b := by
          simp [List.length_cons]
          ring

lemma setUserTotalContributions_spec (st : St) (m : DocId) (v : Money) :
    ∀ u ∈ (setUserTotalContributions st m v).users, u.uid = m →
      u.totalContributions = v := by
  intro u hu huid
  rcases List.mem_map.mp hu with ⟨u0, _, hmap⟩
  by_cases hid : u0.uid = m
  · rw [if_pos hid] at hmap
    rw [← hmap]
  · rw [if_neg hid] at hmap
    rw [← hmap] at huid
    exact absurd huid hid

lemma setUserTotalLoans_spec (st : St) (m : DocId) (v : Money) :
    ∀ u ∈ (setUserTotalLoans st m v).users, u.uid = m → u.totalLoans = v := by
  intro u hu huid
  rcases List.mem_map.mp hu with ⟨u0, _, hmap⟩
  by_cases hid : u0.uid = m
  · rw [if_pos hid] at hmap
    rw [← hmap]
  · rw [if_neg hid] at hmap
    rw [← hmap] at huid
    exact absurd huid hid

lemma setUserTotalPenalties_spec (st : St) (m : DocId) (v : Money) :
    ∀ u ∈ (setUserTotalPenalties st m v).users, u.uid = m → u.totalPenalties = v := by
  intro u hu huid
  rcases List.mem_map.mp hu with ⟨u0, _, hmap⟩
  by_cases hid : u0.uid = m
  · rw [if_pos hid] at hmap
    rw [← hmap]
  · rw [if_neg hid] at hmap
    rw [← hmap] at huid
    exact absurd huid hid

/-! ## Claim theorems -/

/-- C1, counterexample: on `stAllocStatus` (a confirmed and a cancelled
contribution of 100 each), the allocator gives member 1 only 5 of a
10-unit event, while the claim's confirmed-only balances predict 10: the
allocator does not restrict balances to confirmed contributions. -/
theorem claim_C1_counterexample :
    allocateByContribsBeforeOptimized stAllocStatus 10 ⟨2, 2⟩ 1 = 5 ∧
    claimAllocation stAllocStatus 10 ⟨2, 2⟩ 1 = 10 ∧
    allocateByContribsBeforeOptimized stAllocStatus 10 ⟨2, 2⟩ 1 ≠
      claimAllocation stAllocStatus 10 ⟨2, 2⟩ 1 := by
  refine ⟨?_, ?_, ?_⟩ <;>
    simp [allocateByContribsBeforeOptimized, allocTotals, allocPool,
      sortedContributions, contributorIds, contributorUsers, isContributor,
      claimAllocation, claimPoolBalAsOf, claimMemberBalAsOf,
      stAllocStatus, mkUser, mkContribution] <;>
    norm_num

/-- C1, amended: for every positive event amount, the allocator gives each
member `eventAmount * (memberBalanceAtCutoff / poolBalanceAtCutoff)`, where
both balances count the member's (resp. all contributors') contributions of
EVERY status — not only confirmed ones — restricted to active
member/branch-lead users with positive stored totals, with inclusive
cutoff; when the pool at the cutoff is not positive the event allocates
zero to every member. -/
theorem claim_C1_allocation (st : St) (amount : Money) (cutoff : Date)
    (id : DocId) (hpos : 0 < amount) :
    allocateByContribsBeforeOptimized st amount cutoff id
      = if poolBalAllAsOf st cutoff ≤ 0 then 0
        else memberBalAllAsOf st id cutoff / poolBalAllAsOf st cutoff * amount :=
  allocate_eq st amount cutoff id hpos

/-- Witness for C1 at a concrete event. -/
theorem claim_C1_allocation_witness :
    0 < (10 : Money) ∧
    allocateByContribsBeforeOptimized stAllocStatus 10 ⟨2, 2⟩ 1
      = if poolBalAllAsOf stAllocStatus ⟨2, 2⟩ ≤ 0 then 0
        else memberBalAllAsOf stAllocStatus 1 ⟨2, 2⟩ /
          poolBalAllAsOf stAllocStatus ⟨2, 2⟩ * 10 :=
  ⟨by norm_num, claim_C1_allocation stAllocStatus 10 ⟨2, 2⟩ 1 (by norm_num)⟩

/-- C2, counterexample: on `stEarlyEvent` the repaid loan realizes 100 of
interest, but its repayment date precedes every contribution, so the pool
at its cutoff is empty and nothing is allocated: the member-wise
`interestEarned` totals sum to 0, not 100. -/
theorem claim_C2_counterexample :
    sumInterestEarned stEarlyEvent = 0 ∧
    claimRealizedEventsTotal stEarlyEvent = 100 := by
  constructor
  · simp [sumInterestEarned, interestEarnedMap, loanEventStep,
      penaltyEventStep, allocateByContribsBeforeOptimized, allocTotals,
      allocPool, sortedContributions, contributorIds, contributorUsers,
      isContributor, loanInterestAmount, loanRepaidDate, penaltyPaidDate,
      memberExists, stEarlyEvent, mkUser, mkContribution, mkRepaidLoan]
  · simp [claimRealizedEventsTotal, loanInterestAmount, stEarlyEvent,
      mkUser, mkContribution, mkRepaidLoan]
    norm_num

/-- C2, amended: for any snapshot with distinct user ids, the sum over all
contributors of the (unrounded) `interestEarned` accumulators equals the
sum of the realized events that actually allocate — repaid-loan interest
components and paid penalties with positive amount and existing member,
counted only when the contribution pool at the event's cutoff date is
positive. -/
theorem claim_C2_conservation (st : St)
    (hnd : (st.users.map (fun u => u.uid)).Nodup) :
    sumInterestEarned st = allocatedRealizedEventsTotal st :=
  interest_conservation st hnd

/-- Witness for C2 on a concrete snapshot. -/
theorem claim_C2_conservation_witness :
    (stEarlyEvent.users.map (fun u => u.uid)).Nodup ∧
    sumInterestEarned stEarlyEvent = allocatedRealizedEventsTotal stEarlyEvent :=
  ⟨by decide, claim_C2_conservation stEarlyEvent (by decide)⟩

/-- C6, counterexample: on `stOrphanShare` the aggregate contribution
total (200) is positive, yet the shares of the only contributor sum to 50,
not 100: half of the ledger belongs to an id that is no contributor, and
the denominator is the unfiltered aggregate. -/
theorem claim_C6_counterexample :
    0 < aggTotalContributions stOrphanShare ∧
    sumSharePercentages stOrphanShare = 50 := by
  constructor
  · simp [aggTotalContributions, stOrphanShare, mkUser, mkContribution]
  · simp [sumSharePercentages, sharePercentageOf, contributorUsers, isContributor,
      aggTotalContributions, stOrphanShare, mkUser, mkContribution]
    have h5 : (100 : Money) / (100 + 100) * 10000 = 5000 := by norm_num
    rw [h5]
    have hr : round (5000 : Money) = 5000 := by
      exact_mod_cast round_intCast (α := Money) 5000
    rw [hr]
    norm_num

/-- C6, amended: the reported share percentages sum to 100 up to the
accumulated rounding error (at most number-of-contributors / 200) exactly
when the unfiltered aggregate contribution total is positive AND is
covered by the contributors' stored totals; contributions owned by
non-contributors (admins, inactive users, orphans) inflate the denominator
and push the sum below 100. -/
theorem claim_C6_share_sum (st : St)
    (hT : 0 < aggTotalContributions st)
    (hcover : ((contributorUsers st).map (fun u => u.totalContributions)).sum
      = aggTotalContributions st) :
    |sumSharePercentages st - 100| ≤ ((contributorUsers st).length : Money) / 200 := by
  have hTne : aggTotalContributions st ≠ 0 := ne_of_gt hT
  have hshare : ∀ u ∈ contributorUsers st, sharePercentageOf st u
      = ((round (u.totalContributions / aggTotalContributions st * 10000) : ℤ) : Money) / 100 := by
    intro u _
    rw [sharePercentageOf]
    simp [hT]
  have hsum_s : ((contributorUsers st).map
      (fun u => u.totalContributions / aggTotalContributions st * 10000)).sum = 10000 := by
    rw [sum_map_mul_right, sum_map_div, hcover]
    field_simp
  have hdiff : ((contributorUsers st).map
        (fun u => ((round (u.totalContributions / aggTotalContributions st * 10000) : ℤ) : Money))).sum
        - 10000
      = ((contributorUsers st).map
          (fun u => ((round (u.totalContributions / aggTotalContributions st * 10000) : ℤ) : Money)
            - u.totalContributions / aggTotalContributions st * 10000)).sum := by
    rw [sum_map_sub, hsum_s]
  have hbound : |((contributorUsers st).map
        (fun u => ((round (u.totalContributions / aggTotalContributions st * 10000) : ℤ) : Money)
          - u.totalContributions / aggTotalContributions st * 10000)).sum|
      ≤ ((contributorUsers st).length : Money) * (1 / 2) := by
    apply abs_sum_le_length_mul
    intro u _
    rw [abs_sub_comm]
    exact abs_sub_round (u.totalContributions / aggTotalContributions st * 10000)
  have h100 : sumSharePercentages st - 100
      = (((contributorUsers st).map
          (fun u => ((round (u.totalContributions / aggTotalContributions st * 10000) : ℤ) : Money))).sum
        - 10000) / 100 := by
    rw [sumSharePercentages, List.map_congr_left hshare, sum_map_div]
    ring
  rw [h100, hdiff]
  rw [abs_div]
  have : |(100 : Money)| = 100 := by norm_num
  rw [this]
  calc |_| / 100 ≤ (((contributorUsers st).length : Money) * (1 / 2)) / 100 := by
        apply div_le_div_of_nonneg_right ?_ (by norm_num)
        exact hbound
    _ = ((contributorUsers st).length : Money) / 200 := by ring

/-- Witness for C6 on a consistent snapshot (two contributors, shares
25 and 75). -/
theorem claim_C6_share_sum_witness :
    0 < aggTotalContributions stConsistentShare ∧
    ((contributorUsers stConsistentShare).map (fun u => u.totalContributions)).sum
      = aggTotalContributions stConsistentShare ∧
    |sumSharePercentages stConsistentShare - 100|
      ≤ ((contributorUsers stConsistentShare).length : Money) / 200 := by
  have h1 : 0 < aggTotalContributions stConsistentShare := by
    simp [aggTotalContributions, stConsistentShare, mkUser, mkContribution]
    try norm_num
  have h2 : ((contributorUsers stConsistentShare).map (fun u => u.totalContributions)).sum
      = aggTotalContributions stConsistentShare := by
    simp [aggTotalContributions, contributorUsers, isContributor,
      stConsistentShare, mkUser, mkContribution]
  exact ⟨h1, h2, claim_C6_share_sum stConsistentShare h1 h2⟩

/-- C5: the Treasury Balance Calculator derives
`netAvailable = totalContributions - totalApprovedLoans +
interestFromRepaidLoans + collectedPenalties + paidPenalties`,
`futureBalance = netAvailable + interestFromApprovedLoans +
pendingPenalties`, and `bestFutureBalance = netAvailable +
totalToBeRepaidOnApprovedLoans + pendingPenalties`, and records whose
member reference resolves to no user contribute to none of the outputs. -/
theorem claim_C5_treasury (st : St) :
    ((getNetContributions st).netAvailable
      = inputTotalContributions st - inputTotalApprovedLoans st +
        inputInterestFromRepaidLoans st + inputCollectedPenalties st +
        inputPaidPenalties st ∧
     (getNetContributions st).futureBalance
      = (getNetContributions st).netAvailable +
        inputInterestFromApprovedLoans st + inputPendingPenalties st ∧
     (getNetContributions st).bestFutureBalance
      = (getNetContributions st).netAvailable +
        inputTotalToBeRepaidOnApprovedLoans st + inputPendingPenalties st) ∧
    (∀ l : Loan, memberExists st l.member = false →
      getNetContributions { st with loans := l :: st.loans } = getNetContributions st) ∧
    (∀ p : Penalty, memberExists st p.member = false →
      getNetContributions { st with penalties := p :: st.penalties } = getNetContributions st) ∧
    (∀ c : Contribution, memberExists st c.memberId = false →
      getNetContributions { st with contributions := c :: st.contributions }
        = getNetContributions st) := by
  have hcontains : ∀ (st' : St) (m : DocId),
      ((st'.users.filter (fun u => u.isActive)).map (fun u => u.uid)).contains m
        = st'.users.any (fun u => u.isActive ∧ u.uid = m) :=
    fun st' m => activeIds_contains st'.users m
  refine ⟨⟨?_, ?_, ?_⟩, ?_, ?_, ?_⟩
  · simp [getNetContributions, jsSum_eq_sum, inputTotalContributions,
      inputTotalApprovedLoans, inputInterestFromRepaidLoans,
      inputCollectedPenalties, inputPaidPenalties, List.filter_filter,
      Bool.decide_and]
    congr 1
    congr 1
    apply List.filter_congr
    intro c _
    rw [Bool.eq_iff_iff]
    simp [List.mem_map, List.mem_filter]
    tauto
  · simp [getNetContributions, jsSum_eq_sum, inputInterestFromApprovedLoans,
      inputPendingPenalties, List.filter_filter, Bool.decide_and]
  · simp [getNetContributions, jsSum_eq_sum, inputTotalToBeRepaidOnApprovedLoans,
      inputPendingPenalties, List.filter_filter, Bool.decide_and]
  · intro l hl
    simp only [memberExists] at hl
    by_cases hs1 : l.status = LStatus.approved <;>
      by_cases hs2 : l.status = LStatus.repaid <;>
      simp [getNetContributions, memberExists, List.filter_filter,
        List.filter_cons, hs1, hs2, hl]
  · intro p hp
    simp only [memberExists] at hp
    by_cases hs1 : p.status = PStatus.paid <;>
      by_cases hs2 : p.status = PStatus.pending <;>
      simp [getNetContributions, memberExists, penaltyStatusIsCollected,
        List.filter_filter, List.filter_cons, hs1, hs2, hp]
  · intro c hc
    have hball : ∀ u ∈ st.users, ¬ u.uid = c.memberId := by
      simpa [memberExists, List.any_eq_false] using hc
    have hnc : c.memberId ∉
        (st.users.filter (fun u => u.isActive)).map (fun u => u.uid) := by
      intro hmem
      rcases List.mem_map.mp hmem with ⟨u, hu, huid⟩
      exact hball u (List.mem_filter.mp hu).1 huid
    simp [getNetContributions, memberExists, List.filter_cons, hnc]

/-- Witness for C5: the netAvailable equation and invariance under an
orphaned loan, on a concrete snapshot. -/
theorem claim_C5_treasury_witness :
    ((getNetContributions stEarlyEvent).netAvailable
      = inputTotalContributions stEarlyEvent - inputTotalApprovedLoans stEarlyEvent +
        inputInterestFromRepaidLoans stEarlyEvent + inputCollectedPenalties stEarlyEvent +
        inputPaidPenalties stEarlyEvent) ∧
    memberExists stEarlyEvent (mkRepaidLoan 77 99 100 110 1).member = false ∧
    getNetContributions
        { stEarlyEvent with loans := mkRepaidLoan 77 99 100 110 1 :: stEarlyEvent.loans }
      = getNetContributions stEarlyEvent :=
  ⟨(claim_C5_treasury stEarlyEvent).1.1, by decide,
    (claim_C5_treasury stEarlyEvent).2.1 (mkRepaidLoan 77 99 100 110 1) (by decide)⟩

/-- C3, counterexample: approving the pending 1000-unit, 12-month loan
with interest rate 0 succeeds but never writes `totalAmount` (the guard
`loan.amount && interestRate && loan.duration` is falsy at rate 0), so the
stored value stays unset instead of the claimed
`amount + amount*0*12/100 = 1000`. -/
theorem claim_C3_counterexample :
    ((approvingLoan stPendingLoan adminUser 21 ApproveDecision.approved
        (some 0) none ⟨3, 3⟩).state.loans.map (fun l => l.totalAmount)) = [none] ∧
    (1000 : Money) + 1000 * 0 * 12 / 100 = 1000 := by
  constructor
  · simp [approvingLoan, Outcome.state, stPendingLoan, mkPendingLoan,
      adminUser, mkUser, truthy, truthyOpt]
  · norm_num

/-- C3, amended: approving a loan whose status is not pending fails with
400 and leaves the snapshot unchanged; approving a pending loan with a
NONZERO rate r (and nonzero amount and duration) stores
`totalAmount = amount + amount*r*duration/100`; with rate 0 or absent the
computation is skipped and `totalAmount` keeps its previous value. -/
theorem claim_C3_loan_approval (st : St) (actor : User) (loanId : DocId)
    (r : Money) (now : Date) (loan : Loan)
    (hfind : st.loans.find? (fun l => l.lid = loanId) = some loan) :
    (∀ decision ir rr, loan.status ≠ LStatus.pending →
      approvingLoan st actor loanId decision ir rr now = .httpError 400 st) ∧
    (loan.status = LStatus.pending → loan.amount ≠ 0 → r ≠ 0 → loan.duration ≠ 0 →
      (∃ st', approvingLoan st actor loanId ApproveDecision.approved (some r) none now
          = .ok st') ∧
        ∀ l ∈ (approvingLoan st actor loanId ApproveDecision.approved
            (some r) none now).state.loans, l.lid = loanId →
          l.status = LStatus.approved ∧
          l.totalAmount = some (loan.amount + loan.amount * r * loan.duration / 100)) := by
  constructor
  · intro decision ir rr hstatus
    simp [approvingLoan, hfind, hstatus]
  · intro hstatus hamount hr hduration
    have hok : approvingLoan st actor loanId ApproveDecision.approved (some r) none now
        = .ok (approvingLoan st actor loanId ApproveDecision.approved
            (some r) none now).state := by
      simp [approvingLoan, hfind, hstatus, Outcome.state]
    refine ⟨⟨_, hok⟩, ?_⟩
    intro l hl hlid
    simp only [approvingLoan, hfind, hstatus, ne_eq, not_true_eq_false,
      if_false, Outcome.state] at hl
    rcases List.mem_map.mp hl with ⟨l0, _, hmap⟩
    by_cases hid : l0.lid = loanId
    · rw [if_pos hid] at hmap
      have htruthy : truthy loan.amount ∧ truthyOpt (some r) ∧ truthy loan.duration := by
        simp [truthy, truthyOpt, hamount, hr, hduration]
      rw [← hmap]
      simp [htruthy]
    · rw [if_neg hid] at hmap
      rw [← hmap] at hlid
      exact absurd hlid hid

/-- Witness for C3 at rate 10 on the concrete pending loan. -/
theorem claim_C3_loan_approval_witness :
    stPendingLoan.loans.find? (fun l => l.lid = 21) = some (mkPendingLoan 21 1 1000 12) ∧
    (∃ st', approvingLoan stPendingLoan adminUser 21 ApproveDecision.approved
        (some 10) none ⟨3, 3⟩ = .ok st') ∧
    ∀ l ∈ (approvingLoan stPendingLoan adminUser 21 ApproveDecision.approved
        (some 10) none ⟨3, 3⟩).state.loans, l.lid = 21 →
      l.status = LStatus.approved ∧
      l.totalAmount = some ((mkPendingLoan 21 1 1000 12).amount +
        (mkPendingLoan 21 1 1000 12).amount * 10 * (mkPendingLoan 21 1 1000 12).duration / 100) :=
  ⟨by decide,
    (claim_C3_loan_approval stPendingLoan adminUser 21 10 ⟨3, 3⟩
        (mkPendingLoan 21 1 1000 12) (by decide)).2
      (by decide) (by norm_num [mkPendingLoan]) (by norm_num)
      (by norm_num [mkPendingLoan])⟩

/-- C9: a member holding a pending or approved loan cannot request
another: `requestingLoan` answers 400 and returns the snapshot unchanged
(no Loan document is created). -/
theorem claim_C9_duplicate_loan (st : St) (actor : User) (newId : DocId)
    (amount duration : Money) (now : Date)
    (h : hasActiveLoan st actor.uid = true) :
    requestingLoan st actor newId amount duration now = .httpError 400 st := by
  simp [requestingLoan, h]

/-- Witness for C9: member 1 of `stMemberOne` already has a pending loan. -/
theorem claim_C9_duplicate_loan_witness :
    hasActiveLoan stMemberOne (mkUser 1 Role.member true 150).uid = true ∧
    requestingLoan stMemberOne (mkUser 1 Role.member true 150) 99 200 6 ⟨9, 9⟩
      = .httpError 400 stMemberOne :=
  ⟨by decide,
    claim_C9_duplicate_loan stMemberOne (mkUser 1 Role.member true 150) 99 200 6 ⟨9, 9⟩
      (by decide)⟩

/-- C4, counterexample: paying the pending penalty of amount 50 creates a
Contribution of the hard-coded amount -25 (typed monthly, since the
controller's `type: "penalty"` path is not in the Contribution schema),
not of -fee = -50 as the claim states. -/
theorem claim_C4_counterexample :
    ((stPenalties.penalties.find? (fun p => p.pid = 31)).map (fun p => p.amount))
      = some 50 ∧
    (payPenalty stPenalties adminUser 31 99 ⟨7, 7⟩).state.contributions.map
      (fun c => (c.amount, c.contributionType)) = [(-25, CType.monthly)] ∧
    (-25 : Money) ≠ -50 := by
  refine ⟨?_, ?_, by norm_num⟩
  · simp [stPenalties, mkPenalty]
  · simp [payPenalty, Outcome.state, stPenalties, mkPenalty, adminUser, mkUser,
      memberExists, updateUserContributions, contributionMemberField,
      setUserTotalContributions]

/-- C4, amended: paying a non-pending penalty fails with 400 and changes
nothing; paying a pending penalty (admin actor, member still existing)
marks it paid with `paidDate` stamped and creates one Contribution for the
same member of the FIXED amount -25 — regardless of the penalty's fee —
with `contributionType` falling back to monthly because the penalty tag is
passed under a `type` path the schema drops. -/
theorem claim_C4_pay_penalty (st : St) (actor : User) (penaltyId newCid : DocId)
    (now : Date) (pen : Penalty)
    (hfind : st.penalties.find? (fun p => p.pid = penaltyId) = some pen) :
    (pen.status ≠ PStatus.pending →
      payPenalty st actor penaltyId newCid now = .httpError 400 st) ∧
    (pen.status = PStatus.pending → actor.role = Role.admin →
      memberExists st pen.member = true →
      (∃ st', payPenalty st actor penaltyId newCid now = .ok st') ∧
      (payPenalty st actor penaltyId newCid now).state.contributions
        = { cid := newCid, memberId := pen.member, amount := -25,
            contributionType := CType.monthly, contributionDate := now,
            createdAt := now, recordedBy := actor.uid, branch := pen.branch,
            status := CStatus.confirmed } :: st.contributions ∧
      ∀ p ∈ (payPenalty st actor penaltyId newCid now).state.penalties,
        p.pid = penaltyId → p.status = PStatus.paid ∧ p.paidDate = some now) := by
  constructor
  · intro h
    simp [payPenalty, hfind, h]
  · intro hpend hrole hmem
    have hnotbl : ¬ (actor.role = Role.branch_lead ∧ pen.branch ≠ actor.branch) := by
      rw [hrole]
      rintro ⟨hra, _⟩
      cases hra
    have hok : payPenalty st actor penaltyId newCid now
        = .ok (payPenalty st actor penaltyId newCid now).state := by
      simp [payPenalty, hfind, hpend, hnotbl, hmem, Outcome.state]
    refine ⟨⟨_, hok⟩, ?_, ?_⟩
    · simp [payPenalty, hfind, hpend, hnotbl, hmem, Outcome.state,
        updateUserContributions_zero, setUserTotalContributions]
    · have hpenalties : (payPenalty st actor penaltyId newCid now).state.penalties
          = st.penalties.map (fun p => if p.pid = penaltyId then
              { p with status := PStatus.paid, paidDate := some now, updatedAt := some now }
            else p) := by
        simp [payPenalty, hfind, hpend, hnotbl, hmem, Outcome.state,
          updateUserContributions_zero, setUserTotalContributions]
      intro p hp hpid
      rw [hpenalties] at hp
      rcases List.mem_map.mp hp with ⟨p0, _, hmap⟩
      by_cases hid : p0.pid = penaltyId
      · rw [if_pos hid] at hmap
        rw [← hmap]
        exact ⟨rfl, rfl⟩
      · rw [if_neg hid] at hmap
        rw [← hmap] at hpid
        exact absurd hpid hid

/-- Witness for C4 on the concrete pending penalty of amount 50. -/
theorem claim_C4_pay_penalty_witness :
    stPenalties.penalties.find? (fun p => p.pid = 31) = some (mkPenalty 31 1 50 PStatus.pending) ∧
    (∃ st', payPenalty stPenalties adminUser 31 99 ⟨7, 7⟩ = .ok st') ∧
    (payPenalty stPenalties adminUser 31 99 ⟨7, 7⟩).state.contributions
      = { cid := 99, memberId := (mkPenalty 31 1 50 PStatus.pending).member,
          amount := -25, contributionType := CType.monthly,
          contributionDate := ⟨7, 7⟩, createdAt := ⟨7, 7⟩,
          recordedBy := adminUser.uid,
          branch := (mkPenalty 31 1 50 PStatus.pending).branch,
          status := CStatus.confirmed } :: stPenalties.contributions ∧
    ∀ p ∈ (payPenalty stPenalties adminUser 31 99 ⟨7, 7⟩).state.penalties,
      p.pid = 31 → p.status = PStatus.paid ∧ p.paidDate = some ⟨7, 7⟩ :=
  ⟨by decide,
    (claim_C4_pay_penalty stPenalties adminUser 31 99 ⟨7, 7⟩
        (mkPenalty 31 1 50 PStatus.pending) (by decide)).2
      (by decide) (by decide) (by decide)⟩

/-- C8: creating a contribution dated after day 10 of the month
auto-creates exactly one pending `late_contribution` penalty of the flat
25-unit fee, attributed to the contribution's branch and dated at the
contribution's date; a contribution on or before day 10 creates no
penalty. -/
theorem claim_C8_late_penalty (st : St) (actor : User) (req : ContributionReq)
    (newCid newPid : DocId) (now : Date) (member : User)
    (hfind : findUser st req.memberId = some member) :
    (∃ st', createContribution st actor req newCid newPid now = .ok st') ∧
    (∀ d, req.contributionDate = some d → d.day > 10 →
      (createContribution st actor req newCid newPid now).state.penalties
        = { pid := newPid, member := req.memberId, amount := 25,
            reason := PReason.late_contribution, assignedBy := actor.uid,
            status := PStatus.pending, assignedDate := d, paidDate := none,
            waivedDate := none, waivedBy := none, updatedAt := some now,
            createdAt := now,
            branch := if actor.role = Role.branch_lead then actor.branch
              else member.branch } :: st.penalties) ∧
    (∀ d, req.contributionDate = some d → ¬ d.day > 10 →
      (createContribution st actor req newCid newPid now).state.penalties
        = st.penalties) := by
  refine ⟨⟨(createContribution st actor req newCid newPid now).state, ?_⟩, ?_, ?_⟩
  · by_cases hday : ((req.contributionDate.getD now)).day > 10 <;>
      simp [createContribution, hfind, hday, Outcome.state]
  · intro d hd hday
    simp [createContribution, createContributionLedger, newContributionDoc,
      hfind, hday, Outcome.state, hd,
      updateUserContributions_zero, setUserTotalContributions,
      updateUserPenalties, setUserTotalPenalties]
  · intro d hd hday
    simp [createContribution, createContributionLedger, newContributionDoc,
      hfind, hday, Outcome.state, hd,
      updateUserContributions_zero, setUserTotalContributions]

/-- Witness for C8: a day-15 contribution creates the 25-unit pending
penalty, a day-8 contribution creates none. -/
theorem claim_C8_late_penalty_witness :
    (createContribution stMemberOne adminUser reqDay15 91 92 ⟨20, 20⟩).state.penalties
      = { pid := 92, member := reqDay15.memberId, amount := 25,
          reason := PReason.late_contribution, assignedBy := adminUser.uid,
          status := PStatus.pending, assignedDate := ⟨15, 15⟩, paidDate := none,
          waivedDate := none, waivedBy := none, updatedAt := some ⟨20, 20⟩,
          createdAt := ⟨20, 20⟩,
          branch := if adminUser.role = Role.branch_lead then adminUser.branch
            else (mkUser 1 Role.member true 150).branch } :: stMemberOne.penalties ∧
    (createContribution stMemberOne adminUser reqDay8 93 94 ⟨20, 20⟩).state.penalties
      = stMemberOne.penalties :=
  ⟨(claim_C8_late_penalty stMemberOne adminUser reqDay15 91 92 ⟨20, 20⟩
      (mkUser 1 Role.member true 150) (by decide)).2.1 ⟨15, 15⟩ (by decide) (by decide),
   (claim_C8_late_penalty stMemberOne adminUser reqDay8 93 94 ⟨20, 20⟩
      (mkUser 1 Role.member true 150) (by decide)).2.2 ⟨8, 8⟩ (by decide) (by decide)⟩

/-- C10: after deleting any contribution, the recompute helper sets the
owner's stored `totalContributions` to 0 regardless of the member's
remaining contributions, because its aggregation filters on the absent
`member` path instead of `memberId`. -/
theorem claim_C10_delete_zeroes_total (st : St) (cid : DocId) (c : Contribution)
    (hfind : st.contributions.find? (fun x => x.cid = cid) = some c) :
    (∃ st', deletingContribution st cid = .ok st') ∧
    ∀ u ∈ (deletingContribution st cid).state.users, u.uid = c.memberId →
      u.totalContributions = 0 := by
  have hok : deletingContribution st cid
      = .ok (deletingContribution st cid).state := by
    simp [deletingContribution, hfind, Outcome.state]
  refine ⟨⟨_, hok⟩, ?_⟩
  intro u hu huid
  have husers : (deletingContribution st cid).state.users
      = st.users.map (fun u => if u.uid = c.memberId then
          { u with totalContributions := 0 } else u) := by
    simp [deletingContribution, hfind, Outcome.state,
      updateUserContributions_zero, setUserTotalContributions]
  rw [husers] at hu
  rcases List.mem_map.mp hu with ⟨u0, _, hmap⟩
  by_cases hid : u0.uid = c.memberId
  · rw [if_pos hid] at hmap
    rw [← hmap]
  · rw [if_neg hid] at hmap
    rw [← hmap] at huid
    exact absurd huid hid

/-- Witness for C10: deleting member 1's 100-unit contribution zeroes the
stored total although a confirmed contribution of 50 remains. -/
theorem claim_C10_delete_zeroes_total_witness :
    stMemberOne.contributions.find? (fun x => x.cid = 11)
      = some (mkContribution 11 1 100 1 1 CStatus.confirmed) ∧
    (∀ u ∈ (deletingContribution stMemberOne 11).state.users, u.uid = 1 →
      u.totalContributions = 0) ∧
    (((deletingContribution stMemberOne 11).state.contributions.filter
        (fun x => x.memberId = 1 ∧ x.status = CStatus.confirmed)).map
      (fun x => x.amount)).sum = 50 :=
  ⟨by decide,
    fun u hu huid =>
      (claim_C10_delete_zeroes_total stMemberOne 11
        (mkContribution 11 1 100 1 1 CStatus.confirmed) (by decide)).2 u hu huid,
    by simp [deletingContribution, Outcome.state, stMemberOne, mkContribution,
      mkUser, adminUser, updateUserContributions_zero, setUserTotalContributions]⟩

/-- C7, counterexample: creating a 100-unit contribution for member 1,
who already owns a CANCELLED contribution of 50, stores
`totalContributions = 150` — the recompute sums every status — while the
member's non-cancelled ledger entries sum to 100. -/
theorem claim_C7_counterexample :
    ((createContribution stCancelled adminUser reqDay3 13 95 ⟨3, 3⟩).state.users.map
      (fun u => (u.uid, u.totalContributions))) = [(1, 150), (50, 0)] ∧
    (((createContribution stCancelled adminUser reqDay3 13 95 ⟨3, 3⟩).state.contributions.filter
        (fun c => c.memberId = 1 ∧ ¬ c.status = CStatus.cancelled)).map
      (fun c => c.amount)).sum = 100 ∧
    (150 : Money) ≠ 100 := by
  refine ⟨?_, ?_, by norm_num⟩
  · simp [createContribution, createContributionLedger, newContributionDoc,
      findUser, Outcome.state, stCancelled, reqDay3, adminUser, mkUser,
      mkContribution, updateUserContributions, contributionMemberField,
      setUserTotalContributions, jsSum]
    norm_num
  · simp [createContribution, createContributionLedger, newContributionDoc,
      findUser, Outcome.state, stCancelled, reqDay3, adminUser, mkUser,
      mkContribution, updateUserContributions, contributionMemberField,
      setUserTotalContributions]

/-- C7, amended: the stored running totals are maintained as follows —
after `createContribution`, the member's `totalContributions` is the sum
of ALL of that member's contribution documents (cancelled ones included);
after `requestingLoan`, `totalLoans` is the sum of the principal of all of
the member's loans (all statuses, as the spec itself documents); and the
penalty recompute helper stores, as `totalPenalties`, the sum of the
member's PENDING penalties only (paid and waived ones drop out).  None of
the three equals "the sum of non-cancelled ledger entries of the
corresponding kind" in general. -/
theorem claim_C7_totals (st : St) (actor : User) :
    (∀ (req : ContributionReq) (newCid newPid : DocId) (now : Date) (member : User),
      findUser st req.memberId = some member →
      ∀ u ∈ (createContribution st actor req newCid newPid now).state.users,
        u.uid = req.memberId →
        u.totalContributions
          = (((createContribution st actor req newCid newPid now).state.contributions.filter
              (fun c => c.memberId = u.uid)).map (fun c => c.amount)).sum) ∧
    (∀ (newId : DocId) (amount duration : Money) (now : Date),
      hasActiveLoan st actor.uid = false →
      ∀ u ∈ (requestingLoan st actor newId amount duration now).state.users,
        u.uid = actor.uid →
        u.totalLoans
          = (((requestingLoan st actor newId amount duration now).state.loans.filter
              (fun l => l.member = u.uid)).map (fun l => l.amount)).sum) ∧
    (∀ uid : DocId, ∀ u ∈ (updateUserPenalties st uid).users, u.uid = uid →
      u.totalPenalties
        = ((st.penalties.filter
            (fun p => p.member = uid ∧ p.status = PStatus.pending)).map
          (fun p => p.amount)).sum) := by
  refine ⟨?_, ?_, ?_⟩
  · intro req newCid newPid now member hfind u hu huid
    have hmuid : member.uid = req.memberId := findUser_uid st req.memberId member hfind
    have hst : (createContribution st actor req newCid newPid now).state
        = setUserTotalContributions
            (createContributionLedger st actor req newCid newPid now member)
            member.uid
            (jsSum (fun c => c.amount)
              ((createContributionLedger st actor req newCid newPid now member).contributions.filter
                (fun c => c.memberId = member.uid))) := by
      simp [createContribution, hfind, Outcome.state]
    rw [hst] at hu ⊢
    rw [setUserTotalContributions_spec _ member.uid _ u hu (by rw [huid, hmuid])]
    rw [jsSum_eq_sum, setUserTotalContributions_contributions]
    simp only [huid, hmuid]
  · intro newId amount duration now h u hu huid
    have hst : (requestingLoan st actor newId amount duration now).state
        = setUserTotalLoans
            { st with loans := requestedLoanDoc actor newId amount duration now :: st.loans }
            actor.uid
            (jsSum (fun l => l.amount)
              ((requestedLoanDoc actor newId amount duration now :: st.loans).filter
                (fun l => l.member = actor.uid))) := by
      simp [requestingLoan, h, Outcome.state]
    rw [hst] at hu ⊢
    rw [setUserTotalLoans_spec _ actor.uid _ u hu huid]
    rw [jsSum_eq_sum, setUserTotalLoans_loans]
    simp only [huid]
  · intro uid u hu huid
    rw [updateUserPenalties] at hu
    rw [setUserTotalPenalties_spec _ uid _ u hu huid]

/-- Witness for C7: concrete instances of the three recompute rules. -/
theorem claim_C7_totals_witness :
    findUser stMemberOne reqDay8.memberId = some (mkUser 1 Role.member true 150) ∧
    ((createContribution stMemberOne adminUser reqDay8 93 94 ⟨20, 20⟩).state.users.map
      (fun u => u.totalContributions)) = [250, 0] ∧
    (∀ u ∈ (createContribution stMemberOne adminUser reqDay8 93 94 ⟨20, 20⟩).state.users,
      u.uid = reqDay8.memberId →
      u.totalContributions
        = (((createContribution stMemberOne adminUser reqDay8 93 94 ⟨20, 20⟩).state.contributions.filter
            (fun c => c.memberId = u.uid)).map (fun c => c.amount)).sum) := by
  refine ⟨by decide, ?_, ?_⟩
  · simp [createContribution, createContributionLedger, newContributionDoc,
      findUser, Outcome.state, stMemberOne, reqDay8, adminUser, mkUser,
      mkContribution, mkPendingLoan, updateUserContributions,
      contributionMemberField, setUserTotalContributions, jsSum]
    norm_num
  · exact fun u hu huid =>
      (claim_C7_totals stMemberOne adminUser).1 reqDay8 93 94 ⟨20, 20⟩
        (mkUser 1 Role.member true 150) (by decide) u hu huid

end CommunitySaver
